import Mathlib

/-!
Verification development for the streaming control plane of the
`casino_platform` repository: the mediasoup room/peer registry
(`RoomManager.js`, `MediasoupServer.js`), the adaptive-bitrate loop
(`MediasoupServer._setupNetworkMonitoring`), the HLS conversion supervisor
(`HlsConverterService.js`), and the HLS converter module (`converter.js`).

JavaScript `Map` objects are embedded as association lists normalised on
update (an update removes every other binding of the key), which gives the
same `get`/`set`/`delete` observable behaviour as `Map`.  Machine numbers
are embedded as `Nat` (bitrates, ports, times) or `Rat` (RTT samples);
`Math.floor` on a product with a rational factor becomes `Nat` division.
Fallible operations return `Except`.  `await` suspension points that matter
to a claim are made explicit as small-step phases.
-/

namespace CasinoPlatform

/-! ### Association-list model of a JavaScript `Map` -/

/-- `Map.get(k)`: the value of the first binding of `k`, if any. -/
def mget {α : Type} (m : List (String × α)) (k : String) : Option α :=
  (m.find? (fun p => p.1 == k)).map Prod.snd

/-- `Map.set(k, v)`: bind `k` to `v`, dropping any other binding of `k`. -/
def mset {α : Type} (m : List (String × α)) (k : String) (v : α) :
    List (String × α) :=
  (k, v) :: m.filter (fun p => !(p.1 == k))

/-- `Map.delete(k)`: remove the binding of `k`. -/
def mdel {α : Type} (m : List (String × α)) (k : String) :
    List (String × α) :=
  m.filter (fun p => !(p.1 == k))

/-! ### C1 — room registry `getOrCreateRoom` (`RoomManager.js` 113–146,
`MediasoupServer.getRouter` 175–229)

The body of `getOrCreateRoom` is: check `this.rooms.get(roomId)`; if
absent, pick a worker, `await worker.createRouter(...)`, build the room
object and `this.rooms.set(roomId, room)`.  The `await` between the check
and the insertion is the suspension point at which a second concurrent
call can run.  `RegRoom.routerId` numbers routers in creation order and
`routersCreated` counts `createRouter` calls. -/

structure RegRoom where
  id : String
  routerId : Nat
deriving DecidableEq, Repr

structure RegState where
  rooms : List (String × RegRoom)
  nextRouterId : Nat
  routersCreated : Nat
deriving DecidableEq, Repr

/-- The phase a single `getOrCreateRoom(roomId)` call is in: `ready`
(about to check the map), `creating` (past the check, suspended in
`await worker.createRouter`), or `done` with its returned room. -/
inductive GocPhase where
  | ready
  | creating
  | done (r : RegRoom)
deriving DecidableEq, Repr

/-- One atomic step of a single `getOrCreateRoom(roomId)` call.  The map
check and the router creation + insertion are separate steps because the
source `await`s `createRouter` between them. -/
def gocStep (roomId : String) (s : RegState) (c : GocPhase) :
    RegState × GocPhase :=
  match c with
  | .ready =>
    match mget s.rooms roomId with
    | some r => (s, .done r)
    | none => (s, .creating)
  | .creating =>
    let r : RegRoom := ⟨roomId, s.nextRouterId⟩
    ({ rooms := mset s.rooms roomId r,
       nextRouterId := s.nextRouterId + 1,
       routersCreated := s.routersCreated + 1 }, .done r)
  | .done r => (s, .done r)

/-- Two concurrent `getOrCreateRoom(roomId)` calls driven by a schedule:
`true` steps the first call, `false` the second. -/
def runTwoGoc (roomId : String) (sched : List Bool) :
    RegState × GocPhase × GocPhase :=
  sched.foldl
    (fun st pick =>
      let (s, c1, c2) := st
      if pick then
        let (s', c1') := gocStep roomId s c1
        (s', c1', c2)
      else
        let (s', c2') := gocStep roomId s c2
        (s', c1, c2'))
    (⟨[], 0, 0⟩, .ready, .ready)

/-- `getOrCreateRoom` run to completion with no interleaving (both steps
of one call executed atomically). -/
def getOrCreateRoomSeq (s : RegState) (roomId : String) :
    RegRoom × RegState :=
  match mget s.rooms roomId with
  | some r => (r, s)
  | none =>
    let r : RegRoom := ⟨roomId, s.nextRouterId⟩
    (r, { rooms := mset s.rooms roomId r,
          nextRouterId := s.nextRouterId + 1,
          routersCreated := s.routersCreated + 1 })

/-! ### C2, C3 — MediasoupServer peer graph (`MediasoupServer.js`)

Engine handles (routers, transports, producers, consumers) are opaque
`Nat` tokens.  `MsPeer` mirrors the peer object built in
`createWebRtcTransport` (maps of transports/producers/consumers plus
`data.rtpCapabilities`); `MsRoom` mirrors the room object of `getRouter`;
`MsState` holds the registry plus the server-wide `consumers` map.
`closedTransports`/`closedRouters` record the engine `close()` calls
that `closePeer` issues. -/

structure MsPeer where
  id : String
  transports : List (String × Nat)
  producers : List (String × Nat)
  consumers : List (String × Nat)
  rtpCapabilities : Option Nat
deriving DecidableEq, Repr

structure MsRoom where
  router : Nat
  peers : List (String × MsPeer)
deriving DecidableEq, Repr

structure MsState where
  rooms : List (String × MsRoom)
  consumersAll : List (String × Nat)
  closedTransports : List Nat
  closedRouters : List Nat
  nextId : Nat
deriving DecidableEq, Repr

/-- `MediasoupServer.closePeer` (lines 751–781): look the peer up via
`_getPeer`; if absent, return.  Otherwise close every transport of the
peer, delete the peer from the room, and if the room became empty close
the router and delete the room from the registry. -/
def closePeer (s : MsState) (roomId peerId : String) : MsState :=
  match mget s.rooms roomId with
  | none => s
  | some room =>
    match mget room.peers peerId with
    | none => s
    | some peer =>
      let closedT := s.closedTransports ++ peer.transports.map Prod.snd
      let peers' := mdel room.peers peerId
      if peers'.isEmpty then
        { s with rooms := mdel s.rooms roomId,
                 closedTransports := closedT,
                 closedRouters := room.router :: s.closedRouters }
      else
        { s with rooms := mset s.rooms roomId { room with peers := peers' },
                 closedTransports := closedT }

inductive MsError where
  | consumerPeerNotFound
  | producerPeerNotFound
  | producerNotFound
  | transportNotFound
  | noRtpCapabilities
  | incompatibleCapabilities
deriving DecidableEq, Repr

/-- `MediasoupServer.createConsumer` (lines 529–626).  The engine's
`router.canConsume({producerId, rtpCapabilities})` is a parameter.  All
lookups and the capability check precede any mutation; a throw leaves the
server state exactly as it was, which the result pairs the state with. -/
def msCreateConsumer (canConsume : String → Nat → Bool) (s : MsState)
    (roomId consumerPeerId producerPeerId producerId transportId : String) :
    Except MsError Nat × MsState :=
  match mget s.rooms roomId with
  | none => (.error .consumerPeerNotFound, s)
  | some room =>
    match mget room.peers consumerPeerId with
    | none => (.error .consumerPeerNotFound, s)
    | some consumerPeer =>
      match mget room.peers producerPeerId with
      | none => (.error .producerPeerNotFound, s)
      | some producerPeer =>
        match mget producerPeer.producers producerId with
        | none => (.error .producerNotFound, s)
        | some _producer =>
          match mget consumerPeer.transports transportId with
          | none => (.error .transportNotFound, s)
          | some _transport =>
            match consumerPeer.rtpCapabilities with
            | none => (.error .noRtpCapabilities, s)
            | some caps =>
              if canConsume producerId caps then
                let consumer := s.nextId
                let cid := toString consumer
                let consumerPeer' := { consumerPeer with
                  consumers := mset consumerPeer.consumers cid consumer }
                let room' := { room with
                  peers := mset room.peers consumerPeerId consumerPeer' }
                (.ok consumer,
                 { s with rooms := mset s.rooms roomId room',
                          consumersAll := mset s.consumersAll cid consumer,
                          nextId := s.nextId + 1 })
              else
                (.error .incompatibleCapabilities, s)

/-! ### C3 — RoomManager consumer path (`RoomManager.js` 293–348)

`RoomManager.createConsumer` first calls `getOrCreateRoom(roomId)` — which
lazily creates the room (and its router) when the id is unknown — and only
then runs the `canConsume` capability check. -/

structure RmRoom where
  router : Nat
  producers : List (String × Nat)
  consumers : List (String × Nat)
  rtpTransports : List (String × Nat)
  webRtcTransports : List (String × Nat)
deriving DecidableEq, Repr

structure RmState where
  rooms : List (String × RmRoom)
  nextRouterId : Nat
  nextId : Nat
deriving DecidableEq, Repr

/-- `RoomManager.getOrCreateRoom` (lines 113–146), run without
interleaving: return the existing room or create one with a fresh router
and empty collections. -/
def rmGetOrCreateRoom (s : RmState) (roomId : String) : RmRoom × RmState :=
  match mget s.rooms roomId with
  | some room => (room, s)
  | none =>
    let room : RmRoom := ⟨s.nextRouterId, [], [], [], []⟩
    (room, { s with rooms := mset s.rooms roomId room,
                    nextRouterId := s.nextRouterId + 1 })

inductive RmError where
  | incompatibleCapabilities
  | transportNotFound
  | producerNotFound
deriving DecidableEq, Repr

/-- `RoomManager.createConsumer` (lines 293–348): `getOrCreateRoom`, then
the `canConsume` check (throwing `IncompatibleCapabilities` before the
transport and producer lookups), then consumer creation. -/
def rmCreateConsumer (canConsume : String → Nat → Bool) (s : RmState)
    (roomId transportId producerId : String) (rtpCapabilities : Nat) :
    Except RmError Nat × RmState :=
  let rs := rmGetOrCreateRoom s roomId
  let room := rs.1
  let s1 := rs.2
  if canConsume producerId rtpCapabilities then
    match mget room.webRtcTransports transportId with
    | none => (.error .transportNotFound, s1)
    | some _transport =>
      match mget room.producers producerId with
      | none => (.error .producerNotFound, s1)
      | some _producer =>
        let consumer := s1.nextId
        let room' := { room with
          consumers := mset room.consumers (toString consumer) consumer }
        (.ok consumer,
         { s1 with rooms := mset s1.rooms roomId room',
                   nextId := s1.nextId + 1 })
  else
    (.error .incompatibleCapabilities, s1)

/-! ### C4, C5 — adaptive bitrate loop
(`MediasoupServer._setupNetworkMonitoring`, lines 307–403)

Each timer tick reads the transport stats' video outbound-rtp
`roundTripTime` — `Option ℚ`, where a JS falsy check also treats `0` as
absent — and the transport's current max outgoing bitrate (a `Nat`, the
value of the last `setMaxOutgoingBitrate`).  The source hardcodes
`sensitivityFactor = 1.2`; `config.js` (lines 196–210) sets
`decreaseFactor = 0.75`, `increaseFactor = 1.15`, so the applied values
are `Math.floor(bitrate * 3/4)` and `Math.floor(bitrate * 23/20)`,
embedded as `Nat` division. -/

/-- JS falsiness of the extracted `roundTripTime`. -/
def rttFalsy : Option ℚ → Bool
  | none => true
  | some r => r == 0

structure AbrParams where
  minRtt : ℚ
  adjustmentThrottleMs : Nat
  stableNetworkThreshold : Nat
  minBitrate : Nat
  maxBitrate : Nat

structure AbrState where
  lastStats : Option (Option ℚ)
  stableNetworkCount : Nat
  lastAdjustmentTime : Nat
  bitrate : Nat
deriving DecidableEq, Repr

/-- One tick of the `_setupNetworkMonitoring` interval: store the first
sample; skip on a missing/zero RTT or inside the throttle window (leaving
`lastStats` untouched, as the source returns before updating it);
otherwise decrease the bitrate sharply on congestion, increase it slowly
after `stableNetworkThreshold` consecutive stable ticks, and reset the
stability counter in the ambiguous case.  Returns the new controller
state and the bitrate applied via `setMaxOutgoingBitrate`, if any. -/
def abrStep (p : AbrParams) (st : AbrState) (rtt : Option ℚ) (now : Nat) :
    AbrState × Option Nat :=
  match st.lastStats with
  | none => ({ st with lastStats := some rtt }, none)
  | some lastRtt =>
    if rttFalsy rtt || rttFalsy lastRtt then (st, none)
    else if now - st.lastAdjustmentTime < p.adjustmentThrottleMs then
      (st, none)
    else if rtt.getD 0 > lastRtt.getD 0 * (6 / 5 : ℚ) ∧
        rtt.getD 0 > p.minRtt * (3 / 2 : ℚ) then
      (⟨some rtt, 0, now, max p.minBitrate (st.bitrate * 3 / 4)⟩,
       some (max p.minBitrate (st.bitrate * 3 / 4)))
    else if rtt.getD 0 < p.minRtt * (6 / 5 : ℚ) then
      if p.stableNetworkThreshold ≤ st.stableNetworkCount + 1 then
        (⟨some rtt, 0, now, min p.maxBitrate (st.bitrate * 23 / 20)⟩,
         some (min p.maxBitrate (st.bitrate * 23 / 20)))
      else
        ({ st with
            stableNetworkCount := st.stableNetworkCount + 1
            lastStats := some rtt },
         none)
    else ({ st with stableNetworkCount := 0, lastStats := some rtt },
          none)

/-- The monitoring loop over a whole sequence of `(rtt sample, now)`
ticks, collecting every bitrate applied via `setMaxOutgoingBitrate`. -/
def abrRun (p : AbrParams) : AbrState → List (Option ℚ × Nat) →
    AbrState × List Nat
  | st, [] => (st, [])
  | st, tick :: rest =>
    let r := abrStep p st tick.1 tick.2
    let tail := abrRun p r.1 rest
    (tail.1, r.2.toList ++ tail.2)

/-! ### C9 — worker pools -/

inductive PoolError where
  | noWorkersAvailable
deriving DecidableEq, Repr

/-- `MediasoupServer._getNextWorker` (lines 158–168): throw when the pool
is empty, else return `workers[nextWorkerIndex]` (as JS indexing, `none`
when out of bounds) and advance the index modulo the pool size. -/
def msGetNextWorker (workers : List Nat) (nextWorkerIndex : Nat) :
    Except PoolError (Option Nat × Nat) :=
  if workers.length = 0 then .error .noWorkersAvailable
  else .ok (workers.get? nextWorkerIndex,
            (nextWorkerIndex + 1) % workers.length)

/-- `RoomManager._getNextWorker` (lines 62–69): no emptiness check.  On an
empty pool `workers[idx]` is `undefined` (`none`) and
`(idx + 1) % 0` is `NaN`, modelled as a `none` index. -/
def rmGetNextWorker (workers : List Nat) (nextWorkerIndex : Nat) :
    Option Nat × Option Nat :=
  (workers.get? nextWorkerIndex,
   if workers.length = 0 then none
   else some ((nextWorkerIndex + 1) % workers.length))

/-- The workers handed out by `n` successive
`MediasoupServer._getNextWorker` calls. -/
def msRunNextWorker (workers : List Nat) : Nat → Nat → List (Option Nat)
  | _idx, 0 => []
  | idx, Nat.succ n =>
    match msGetNextWorker workers idx with
    | .error _ => []
    | .ok (w, idx') => w :: msRunNextWorker workers idx' n

/-! ### C6, C7 — HLS conversion supervisor (`HlsConverterService.js`)

A `Conversion` mirrors the record built by `startConversion` (lines
114–228): identity `"<roomId>-<producerId>"`, output directory, the
side-channel plain transport and RTP consumer, the supervised encoder
process handle, and the public playlist URL (the local `config.hls.baseUrl`
branch of the URL priority, S3/CloudFront being disabled by default).
`spawned` counts encoder process launches; `scheduledRestarts` logs the
`setTimeout` restart timers registered by the `exit` handler. -/

structure Conversion where
  id : String
  roomId : String
  producerId : String
  outputDir : String
  transportId : Nat
  consumerId : Nat
  ffmpegProcess : Nat
  hlsUrl : String
deriving DecidableEq, Repr

structure HlsState where
  conversions : List (String × Conversion)
  nextId : Nat
  spawned : Nat
  closed : Bool
  scheduledRestarts : List (String × Nat)
deriving DecidableEq, Repr

def hlsOutputPath : String := "public/hls"

def hlsBaseUrl : String := "http://localhost:3000/hls"

/-- `HlsConverterService.startConversion` (lines 114–228): if a conversion
for `"<roomId>-<producerId>"` already exists, return it unchanged;
otherwise create the output directory, the plain transport and RTP
consumer, spawn the encoder, compute the playlist URL and register the
conversion. -/
def startConversion (s : HlsState) (roomId producerId kind : String) :
    Conversion × HlsState :=
  let conversionId := roomId ++ "-" ++ producerId
  match mget s.conversions conversionId with
  | some conversion => (conversion, s)
  | none =>
    let conversion : Conversion :=
      ⟨conversionId, roomId, producerId,
       hlsOutputPath ++ "/" ++ roomId ++ "/" ++ producerId,
       s.nextId, s.nextId + 1, s.nextId + 2,
       hlsBaseUrl ++ "/" ++ roomId ++ "/" ++ producerId ++ "/playlist.m3u8"⟩
    (conversion,
     { s with conversions := mset s.conversions conversionId conversion,
              nextId := s.nextId + 3,
              spawned := s.spawned + 1 })

/-- The fixed crash backoff of the supervisor: `setTimeout(..., 10000)`
(lines 206–220). -/
def restartBackoffMs : Nat := 10000

/-- The encoder `exit` handler (lines 207–220): when the exit code is
non-zero (a `null` signal-kill code, `none` here, also satisfies
`code !== 0`) and the service is not closed, schedule a restart after the
fixed backoff. -/
def onFfmpegExit (s : HlsState) (conversionId : String)
    (code : Option Int) : HlsState :=
  if code ≠ some 0 ∧ s.closed = false then
    { s with scheduledRestarts :=
        (conversionId, restartBackoffMs) :: s.scheduledRestarts }
  else s

/-- The body of the scheduled restart timer together with
`_restartFFmpeg` (lines 212–218 and 236–274): if the conversion is still
registered and the service is not closed, kill the old process and spawn
a new encoder against the same output directory and side-channel
transport, mutating only the conversion's process handle. -/
def fireRestart (s : HlsState) (conversionId : String) : HlsState :=
  if s.closed then s
  else
    match mget s.conversions conversionId with
    | none => s
    | some conversion =>
      { s with
          conversions := mset s.conversions conversionId
            { conversion with ffmpegProcess := s.nextId },
          nextId := s.nextId + 1,
          spawned := s.spawned + 1 }

/-- `HlsConverterService.stopConversion` (lines 389–434): kill the
encoder, clear the uploader timer, close the side-channel consumer and
transport, and remove the conversion from the registry (a no-op for an
unknown conversion). -/
def stopConversion (s : HlsState) (roomId producerId : String) : HlsState :=
  let conversionId := roomId ++ "-" ++ producerId
  match mget s.conversions conversionId with
  | none => s
  | some _conversion =>
    { s with conversions := mdel s.conversions conversionId }

/-! ### C8 — segment upload passes -/

structure FileEntry where
  name : String
  mtime : Nat
deriving DecidableEq, Repr

/-- `name.endsWith(suffix)`, computed on the character lists so that it
evaluates inside the kernel. -/
def strEndsWith (s suffix : String) : Bool :=
  suffix.data.isSuffixOf s.data

def isHlsArtifact (n : String) : Bool :=
  strEndsWith n ".m3u8" || strEndsWith n ".ts"

/-- One pass of `uploadNewFiles` in `converter.js` (lines 253–322):
upload every playlist/segment file except those modified within the last
500 ms (the debounce window for partially-written files).  Returns the
files uploaded in the pass. -/
def converterUploadPass (now : Nat) (files : List FileEntry) :
    List FileEntry :=
  files.filter
    (fun f => isHlsArtifact f.name && !(decide (now - f.mtime < 500)))

/-- One pass of the `_startS3Uploader` loop in `HlsConverterService.js`
(lines 285–347): upload every `.ts`/`.m3u8` file in the directory — this
loop has no modification-time check at all. -/
def serviceUploadPass (files : List FileEntry) : List FileEntry :=
  files.filter
    (fun f => strEndsWith f.name ".ts" || strEndsWith f.name ".m3u8")

/-! ### C10 — RTP port allocator (`converter.js` 38–39, 65–101) -/

def minRtpPort : Nat := 10000

def maxRtpPort : Nat := 59999

/-- `if (port % 2 !== 0) port++` — round an odd candidate up to the next
even port (RTP convention). -/
def evenizePort (port : Nat) : Nat :=
  if port % 2 = 0 then port else port + 1

/-- The sequential fallback of `allocateRtpPort`: from `port`, step by 2
past every in-use port while still within the range. -/
def seqScanPort (usedPorts : List Nat) (port : Nat) : Nat :=
  if h : port ≤ maxRtpPort ∧ usedPorts.contains port = true then
    seqScanPort usedPorts (port + 2)
  else port
termination_by maxRtpPort + 2 - port
decreasing_by
  obtain ⟨h1, _⟩ := h
  omega

/-- The randomized do-while of `allocateRtpPort` (lines 65–93): each
iteration draws `Math.floor(random * (maxRtpPort - minRtpPort)) +
minRtpPort` — an arbitrary draw `r` embedded as `r % 49999 + 10000` —
evenizes it, and retries while the port is in use (a random candidate is
always `≤ maxRtpPort`, so the range test of the loop condition is
vacuous); when the draws are exhausted (the source's 100-attempt cap) it
falls back to the sequential scan from `minRtpPort`. -/
def allocLoop (usedPorts : List Nat) : List Nat → Nat
  | [] => seqScanPort usedPorts minRtpPort
  | r :: rs =>
    if usedPorts.contains (evenizePort (r % 49999 + minRtpPort)) = true then
      allocLoop usedPorts rs
    else evenizePort (r % 49999 + minRtpPort)

inductive PortError where
  | portExhausted
deriving DecidableEq, Repr

/-- `allocateRtpPort`: run the allocation loop; if the resulting port lies
past `maxRtpPort` throw the port-exhausted error, else record the port in
the in-use set and return it. -/
def allocateRtpPort (usedPorts : List Nat) (draws : List Nat) :
    Except PortError (Nat × List Nat) :=
  if allocLoop usedPorts draws > maxRtpPort then .error .portExhausted
  else .ok (allocLoop usedPorts draws, allocLoop usedPorts draws :: usedPorts)

/-- `releaseRtpPort` (lines 99–101): drop the port from the in-use set. -/
def releaseRtpPort (usedPorts : List Nat) (port : Nat) : List Nat :=
  usedPorts.filter (fun p => !(p == port))

end CasinoPlatform

namespace CasinoPlatform

/-! ### Map lemmas -/

theorem mget_mset_self {α : Type} (m : List (String × α)) (k : String)
    (v : α) : mget (mset m k v) k = some v := by
  simp [mget, mset, List.find?]

theorem mget_mset_ne {α : Type} (m : List (String × α)) (k k' : String)
    (v : α) (h : k' ≠ k) : mget (mset m k v) k' = mget m k' := by
  simp only [mget, mset, List.find?]
  have hbk : ((k, v).1 == k') = false :=
    beq_eq_false_iff_ne.mpr (fun h' => h h'.symm)
  simp only [hbk]
  induction m with
  | nil => simp
  | cons a l ih =>
    by_cases ha : a.1 == k
    · have : (!(a.1 == k)) = false := by simp [ha]
      have hak' : (a.1 == k') = false :=
        beq_eq_false_iff_ne.mpr
          (fun h' => h (h'.symm.trans (beq_iff_eq.mp ha)))
      simp only [List.filter, this, List.find?, hak']
      exact ih
    · have : (!(a.1 == k)) = true := by simp_all
      simp only [List.filter, this, List.find?]
      cases hak' : a.1 == k' with
      | true => simp
      | false => simpa [hak'] using ih

theorem mget_mdel_self {α : Type} (m : List (String × α)) (k : String) :
    mget (mdel m k) k = none := by
  simp only [mget, mdel]
  induction m with
  | nil => simp
  | cons a l ih =>
    by_cases ha : a.1 == k
    · have : (!(a.1 == k)) = false := by simp [ha]
      simp only [List.filter, this]
      exact ih
    · have h1 : (!(a.1 == k)) = true := by simp_all
      have h2 : (a.1 == k) = false := by simp_all
      simp only [List.filter, h1, List.find?, h2]
      exact ih

/-! ### C1 theorems -/

/-- C1 (counterexample): two concurrent `getOrCreateRoom("room-1")` calls
for the unknown id, interleaved check/check/create/create, create two
routers and return two different room objects — refuting the
single-creation guarantee claimed for concurrent calls. -/
theorem c1_concurrent_goc_two_routers :
    (runTwoGoc "room-1" [true, false, true, false]).1.routersCreated = 2 ∧
    (runTwoGoc "room-1" [true, false, true, false]).2.1 =
      GocPhase.done ⟨"room-1", 0⟩ ∧
    (runTwoGoc "room-1" [true, false, true, false]).2.2 =
      GocPhase.done ⟨"room-1", 1⟩ ∧
    GocPhase.done (RegRoom.mk "room-1" 0) ≠
      GocPhase.done (RegRoom.mk "room-1" 1) := by
  refine ⟨?_, ?_, ?_, ?_⟩ <;> decide

/-- C1 (amended): when the two calls are serialized (no interleaving),
`getOrCreateRoom` creates exactly one router for an unknown id, the second
call returns the first call's room unchanged, and the registry keeps at
most one binding per room id. -/
theorem c1_getOrCreate_serialized (s : RegState) (roomId : String)
    (hnd : (s.rooms.map Prod.fst).Nodup) :
    (getOrCreateRoomSeq (getOrCreateRoomSeq s roomId).2 roomId).1 =
      (getOrCreateRoomSeq s roomId).1 ∧
    (getOrCreateRoomSeq (getOrCreateRoomSeq s roomId).2 roomId).2 =
      (getOrCreateRoomSeq s roomId).2 ∧
    (mget s.rooms roomId = none →
      (getOrCreateRoomSeq s roomId).2.routersCreated =
        s.routersCreated + 1) ∧
    ((getOrCreateRoomSeq s roomId).2.rooms.map Prod.fst).Nodup := by
  cases hlook : mget s.rooms roomId with
  | some r =>
    refine ⟨?_, ?_, ?_, ?_⟩
    · simp [getOrCreateRoomSeq, hlook]
    · simp [getOrCreateRoomSeq, hlook]
    · intro h; simp [hlook] at h
    · simpa [getOrCreateRoomSeq, hlook] using hnd
  | none =>
    have hset : mget (mset s.rooms roomId ⟨roomId, s.nextRouterId⟩) roomId
        = some ⟨roomId, s.nextRouterId⟩ := mget_mset_self _ _ _
    refine ⟨?_, ?_, ?_, ?_⟩
    · simp [getOrCreateRoomSeq, hlook, hset]
    · simp [getOrCreateRoomSeq, hlook, hset]
    · intro _; simp [getOrCreateRoomSeq, hlook]
    · simp only [getOrCreateRoomSeq, hlook, mset, List.map_cons]
      refine List.nodup_cons.mpr
        ⟨?_, List.Nodup.sublist ((List.filter_sublist _).map Prod.fst) hnd⟩
      intro hmem
      rcases List.mem_map.mp hmem with ⟨p, hp, hpk⟩
      rcases List.mem_filter.mp hp with ⟨_, hkeep⟩
      simp only [Bool.not_eq_true', beq_eq_false_iff_ne] at hkeep
      exact hkeep hpk

/-- C1 (witness for the amended theorem): instantiated at a concrete
one-room registry. -/
theorem c1_getOrCreate_serialized_witness :
    (([("a", RegRoom.mk "a" 0)].map Prod.fst).Nodup) ∧
    ((getOrCreateRoomSeq
        (getOrCreateRoomSeq ⟨[("a", ⟨"a", 0⟩)], 1, 1⟩ "b").2 "b").1 =
      (getOrCreateRoomSeq ⟨[("a", ⟨"a", 0⟩)], 1, 1⟩ "b").1 ∧
    (getOrCreateRoomSeq
        (getOrCreateRoomSeq ⟨[("a", ⟨"a", 0⟩)], 1, 1⟩ "b").2 "b").2 =
      (getOrCreateRoomSeq ⟨[("a", ⟨"a", 0⟩)], 1, 1⟩ "b").2 ∧
    (mget [("a", RegRoom.mk "a" 0)] "b" = none →
      (getOrCreateRoomSeq ⟨[("a", ⟨"a", 0⟩)], 1, 1⟩ "b").2.routersCreated =
        1 + 1) ∧
    ((getOrCreateRoomSeq ⟨[("a", ⟨"a", 0⟩)], 1, 1⟩ "b").2.rooms.map
        Prod.fst).Nodup) :=
  ⟨by decide, c1_getOrCreate_serialized ⟨[("a", ⟨"a", 0⟩)], 1, 1⟩ "b"
    (by decide)⟩

/-! ### C2 theorems -/

/-- C2: when `closePeer` is called for the last remaining peer of a room,
the peer's transports are closed, the router is closed, and the room is
absent from the registry map afterwards. -/
theorem c2_closePeer_last_removes_room (s : MsState)
    (roomId peerId : String) (room : MsRoom) (peer : MsPeer)
    (hroom : mget s.rooms roomId = some room)
    (hlast : room.peers = [(peerId, peer)]) :
    mget (closePeer s roomId peerId).rooms roomId = none ∧
    (∀ t ∈ peer.transports.map Prod.snd,
      t ∈ (closePeer s roomId peerId).closedTransports) ∧
    room.router ∈ (closePeer s roomId peerId).closedRouters := by
  have hpg : mget room.peers peerId = some peer := by
    simp [hlast, mget, List.find?]
  have hdel : mdel room.peers peerId = [] := by
    simp [hlast, mdel, List.filter]
  simp only [closePeer, hroom, hpg, hdel, List.isEmpty_nil, if_pos]
  refine ⟨mget_mdel_self _ _, ?_, ?_⟩
  · intro t ht
    exact List.mem_append_right _ ht
  · exact List.mem_cons_self _ _

/-- C2 (witness): a room with a single peer owning one transport. -/
theorem c2_closePeer_last_removes_room_witness :
    (mget [("r", MsRoom.mk 5 [("p", MsPeer.mk "p" [("t", 9)] [] [] none)])]
        "r" = some (MsRoom.mk 5 [("p", MsPeer.mk "p" [("t", 9)] [] [] none)])) ∧
    ((MsRoom.mk 5 [("p", MsPeer.mk "p" [("t", 9)] [] [] none)]).peers =
      [("p", MsPeer.mk "p" [("t", 9)] [] [] none)]) ∧
    (mget (closePeer
        ⟨[("r", ⟨5, [("p", ⟨"p", [("t", 9)], [], [], none⟩)]⟩)],
          [], [], [], 0⟩ "r" "p").rooms "r" = none ∧
    (∀ t ∈ ((MsPeer.mk "p" [("t", 9)] [] [] none).transports.map Prod.snd),
      t ∈ (closePeer
        ⟨[("r", ⟨5, [("p", ⟨"p", [("t", 9)], [], [], none⟩)]⟩)],
          [], [], [], 0⟩ "r" "p").closedTransports) ∧
    (MsRoom.mk 5 [("p", MsPeer.mk "p" [("t", 9)] [] [] none)]).router ∈
      (closePeer
        ⟨[("r", ⟨5, [("p", ⟨"p", [("t", 9)], [], [], none⟩)]⟩)],
          [], [], [], 0⟩ "r" "p").closedRouters) :=
  ⟨by decide, by decide,
   c2_closePeer_last_removes_room
     ⟨[("r", ⟨5, [("p", ⟨"p", [("t", 9)], [], [], none⟩)]⟩)], [], [], [], 0⟩
     "r" "p" ⟨5, [("p", ⟨"p", [("t", 9)], [], [], none⟩)]⟩
     ⟨"p", [("t", 9)], [], [], none⟩ (by decide) (by decide)⟩

/-! ### C3 theorems -/

/-- C3 (counterexample): `RoomManager.createConsumer` called with an
unknown room id and incompatible capabilities fails with
`IncompatibleCapabilities`, yet the state is *not* unchanged — the lazy
`getOrCreateRoom` call has already created the room and its router. -/
theorem c3_rmCreateConsumer_creates_room_on_error :
    (rmCreateConsumer (fun _ _ => false) ⟨[], 0, 0⟩ "r1" "t1" "p1" 7).1 =
      .error .incompatibleCapabilities ∧
    (rmCreateConsumer (fun _ _ => false) ⟨[], 0, 0⟩ "r1" "t1" "p1" 7).2 ≠
      (⟨[], 0, 0⟩ : RmState) ∧
    mget (rmCreateConsumer (fun _ _ => false)
        ⟨[], 0, 0⟩ "r1" "t1" "p1" 7).2.rooms "r1" =
      some ⟨0, [], [], [], []⟩ :=
  ⟨rfl, by decide, rfl⟩

/-- C3 (amended): on an incompatible-capabilities request both
implementations fail with `IncompatibleCapabilities` and add no consumer
to any collection; `MediasoupServer.createConsumer` leaves the whole state
unchanged, while `RoomManager.createConsumer` leaves every room's consumer
collection unchanged (a lazily created unknown room having an empty one),
its only possible state change being that lazy room creation. -/
theorem c3_createConsumer_incompatible_no_consumer
    (cc : String → Nat → Bool) (s : MsState) (t : RmState)
    (roomId consumerPeerId producerPeerId producerId transportId : String)
    (rmRoomId rmTransportId rmProducerId : String) (caps rmCaps : Nat)
    (room : MsRoom) (consumerPeer producerPeer : MsPeer)
    (hroom : mget s.rooms roomId = some room)
    (hcp : mget room.peers consumerPeerId = some consumerPeer)
    (hpp : mget room.peers producerPeerId = some producerPeer)
    (hprod : (mget producerPeer.producers producerId).isSome = true)
    (htr : (mget consumerPeer.transports transportId).isSome = true)
    (hcaps : consumerPeer.rtpCapabilities = some caps)
    (hmsno : cc producerId caps = false)
    (hrmno : cc rmProducerId rmCaps = false) :
    msCreateConsumer cc s roomId consumerPeerId producerPeerId producerId
        transportId = (.error .incompatibleCapabilities, s) ∧
    (rmCreateConsumer cc t rmRoomId rmTransportId rmProducerId rmCaps).1 =
      .error .incompatibleCapabilities ∧
    (∀ rid room', mget (rmCreateConsumer cc t rmRoomId rmTransportId
          rmProducerId rmCaps).2.rooms rid = some room' →
      room'.consumers = (match mget t.rooms rid with
        | some r => r.consumers
        | none => [])) := by
  obtain ⟨prod, hprod'⟩ := Option.isSome_iff_exists.mp hprod
  obtain ⟨tr, htr'⟩ := Option.isSome_iff_exists.mp htr
  refine ⟨?_, ?_, ?_⟩
  · simp [msCreateConsumer, hroom, hcp, hpp, hprod', htr', hcaps, hmsno]
  · cases hlk : mget t.rooms rmRoomId with
    | some r => simp [rmCreateConsumer, rmGetOrCreateRoom, hlk, hrmno]
    | none => simp [rmCreateConsumer, rmGetOrCreateRoom, hlk, hrmno]
  · intro rid room' hmem
    cases hlk : mget t.rooms rmRoomId with
    | some r =>
      simp only [rmCreateConsumer, rmGetOrCreateRoom, hlk, hrmno,
        Bool.false_eq_true, if_false] at hmem
      rw [hmem]
    | none =>
      simp only [rmCreateConsumer, rmGetOrCreateRoom, hlk, hrmno,
        Bool.false_eq_true, if_false] at hmem
      by_cases hrid : rid = rmRoomId
      · subst hrid
        rw [mget_mset_self] at hmem
        obtain rfl : room' = ⟨t.nextRouterId, [], [], [], []⟩ :=
          (Option.some.inj hmem).symm
        simp [hlk]
      · rw [mget_mset_ne _ _ _ _ hrid] at hmem
        rw [hmem]

/-- C3 (witness for the amended theorem): a concrete server state with a
room, two peers, a producer, a transport and capabilities present, and an
engine that rejects the pairing. -/
theorem c3_createConsumer_incompatible_no_consumer_witness :
    msCreateConsumer (fun _ _ => false)
        ⟨[("r", ⟨7, [("a", ⟨"a", [("t", 3)], [], [], some 4⟩),
                     ("b", ⟨"b", [], [("pr", 8)], [], none⟩)]⟩)],
          [], [], [], 0⟩
        "r" "a" "b" "pr" "t" =
      (.error .incompatibleCapabilities,
       ⟨[("r", ⟨7, [("a", ⟨"a", [("t", 3)], [], [], some 4⟩),
                    ("b", ⟨"b", [], [("pr", 8)], [], none⟩)]⟩)],
         [], [], [], 0⟩) ∧
    (rmCreateConsumer (fun _ _ => false) ⟨[], 0, 0⟩ "x" "t" "p" 9).1 =
      .error .incompatibleCapabilities ∧
    (∀ rid room', mget (rmCreateConsumer (fun _ _ => false)
          ⟨[], 0, 0⟩ "x" "t" "p" 9).2.rooms rid = some room' →
      room'.consumers = (match mget ([] : List (String × RmRoom)) rid with
        | some r => r.consumers
        | none => [])) :=
  c3_createConsumer_incompatible_no_consumer (fun _ _ => false)
    ⟨[("r", ⟨7, [("a", ⟨"a", [("t", 3)], [], [], some 4⟩),
                 ("b", ⟨"b", [], [("pr", 8)], [], none⟩)]⟩)], [], [], [], 0⟩
    ⟨[], 0, 0⟩ "r" "a" "b" "pr" "t" "x" "t" "p" 4 9
    ⟨7, [("a", ⟨"a", [("t", 3)], [], [], some 4⟩),
         ("b", ⟨"b", [], [("pr", 8)], [], none⟩)]⟩
    ⟨"a", [("t", 3)], [], [], some 4⟩
    ⟨"b", [], [("pr", 8)], [], none⟩
    (by decide) (by decide) (by decide) (by decide) (by decide) (by decide)
    rfl rfl

/-! ### C4, C5 theorems -/

theorem abrStep_bitrate_mem (p : AbrParams) (st : AbrState)
    (rtt : Option ℚ) (now : Nat)
    (h1 : p.minBitrate ≤ st.bitrate) (h2 : st.bitrate ≤ p.maxBitrate) :
    (p.minBitrate ≤ (abrStep p st rtt now).1.bitrate ∧
     (abrStep p st rtt now).1.bitrate ≤ p.maxBitrate) ∧
    ∀ b ∈ (abrStep p st rtt now).2,
      p.minBitrate ≤ b ∧ b ≤ p.maxBitrate := by
  have hmm : p.minBitrate ≤ p.maxBitrate := le_trans h1 h2
  have hdec : st.bitrate * 3 / 4 ≤ st.bitrate := by omega
  have hinc : st.bitrate ≤ st.bitrate * 23 / 20 := by omega
  have hd1 : p.minBitrate ≤ max p.minBitrate (st.bitrate * 3 / 4) :=
    le_max_left _ _
  have hd2 : max p.minBitrate (st.bitrate * 3 / 4) ≤ p.maxBitrate :=
    max_le hmm (le_trans hdec h2)
  have hi1 : p.minBitrate ≤ min p.maxBitrate (st.bitrate * 23 / 20) :=
    le_min hmm (le_trans h1 hinc)
  have hi2 : min p.maxBitrate (st.bitrate * 23 / 20) ≤ p.maxBitrate :=
    min_le_left _ _
  unfold abrStep
  split
  · exact ⟨⟨h1, h2⟩, by simp⟩
  · split_ifs <;>
      first
        | exact ⟨⟨h1, h2⟩, by simp⟩
        | exact ⟨⟨hd1, hd2⟩, fun b hb => by
            simp only [Option.mem_def, Option.some.injEq] at hb
            exact hb ▸ ⟨hd1, hd2⟩⟩
        | exact ⟨⟨hi1, hi2⟩, fun b hb => by
            simp only [Option.mem_def, Option.some.injEq] at hb
            exact hb ▸ ⟨hi1, hi2⟩⟩

/-- C4: over an arbitrarily long sequence of RTT samples, every bitrate
the adaptive-bitrate loop applies via `setMaxOutgoingBitrate` lies within
`[minBitrate, maxBitrate]`, provided the transport's starting bitrate
(the configured `initialAvailableOutgoingBitrate`) does. -/
theorem c4_abr_bitrate_bounded (p : AbrParams) (st : AbrState)
    (samples : List (Option ℚ × Nat))
    (h1 : p.minBitrate ≤ st.bitrate) (h2 : st.bitrate ≤ p.maxBitrate) :
    ∀ b ∈ (abrRun p st samples).2,
      p.minBitrate ≤ b ∧ b ≤ p.maxBitrate := by
  induction samples generalizing st with
  | nil => simp [abrRun]
  | cons tick rest ih =>
    obtain ⟨⟨g1, g2⟩, gapp⟩ :=
      abrStep_bitrate_mem p st tick.1 tick.2 h1 h2
    intro b hb
    simp only [abrRun, List.mem_append] at hb
    rcases hb with hb | hb
    · exact gapp b (by simpa using hb)
    · exact ih _ g1 g2 b hb

/-- C4 (witness): the default configuration —
`minBitrate = 250000`, `maxBitrate = 5000000`,
`initialAvailableOutgoingBitrate = 2000000` — over a two-tick run. -/
theorem c4_abr_bitrate_bounded_witness :
    (250000 ≤ 2000000) ∧ (2000000 ≤ 5000000) ∧
    (∀ b ∈ (abrRun ⟨50, 5000, 5, 250000, 5000000⟩ ⟨none, 0, 0, 2000000⟩
        [(some 100, 2000), (some 200, 7000)]).2,
      250000 ≤ b ∧ b ≤ 5000000) :=
  ⟨by decide, by decide,
   c4_abr_bitrate_bounded ⟨50, 5000, 5, 250000, 5000000⟩
     ⟨none, 0, 0, 2000000⟩ [(some 100, 2000), (some 200, 7000)]
     (by decide) (by decide)⟩

/-- C5: on a tick where a prior sample exists, the throttle window has
elapsed, and `currentRtt > previousRtt * sensitivityFactor` with
`currentRtt > minRtt * 1.5`, the loop applies
`max(minBitrate, floor(currentBitrate * decreaseFactor))` immediately
(recording the adjustment time) and resets the stability counter to
zero. -/
theorem c5_congestion_decrease (p : AbrParams) (st : AbrState)
    (lr cr : ℚ) (now : Nat)
    (hlast : st.lastStats = some (some lr))
    (hlr : lr ≠ 0) (hcr : cr ≠ 0)
    (hthr : p.adjustmentThrottleMs ≤ now - st.lastAdjustmentTime)
    (hsens : cr > lr * (6 / 5 : ℚ))
    (hmin : cr > p.minRtt * (3 / 2 : ℚ)) :
    abrStep p st (some cr) now =
      (⟨some (some cr), 0, now, max p.minBitrate (st.bitrate * 3 / 4)⟩,
       some (max p.minBitrate (st.bitrate * 3 / 4))) := by
  have hf1 : rttFalsy (some cr) = false := beq_eq_false_iff_ne.mpr hcr
  have hf2 : rttFalsy (some lr) = false := beq_eq_false_iff_ne.mpr hlr
  have hnt : ¬(now - st.lastAdjustmentTime < p.adjustmentThrottleMs) :=
    not_lt.mpr hthr
  simp [abrStep, hlast, hf1, hf2, hnt, hsens, hmin]

/-- C5 (witness): default config (`minRtt = 50`,
`adjustmentThrottleMs = 5000`), previous RTT 100, current RTT 200, current
bitrate 2000000: the applied value is
`max(250000, floor(2000000 * 0.75)) = 1500000` and the counter resets. -/
theorem c5_congestion_decrease_witness :
    ((⟨some (some 100), 2, 0, 2000000⟩ : AbrState).lastStats =
      some (some (100 : ℚ))) ∧
    ((100 : ℚ) ≠ 0) ∧ ((200 : ℚ) ≠ 0) ∧
    ((5000 : Nat) ≤ 6000 - 0) ∧
    ((200 : ℚ) > 100 * (6 / 5 : ℚ)) ∧
    ((200 : ℚ) > (50 : ℚ) * (3 / 2 : ℚ)) ∧
    abrStep ⟨50, 5000, 5, 250000, 5000000⟩ ⟨some (some 100), 2, 0, 2000000⟩
        (some 200) 6000 =
      (⟨some (some 200), 0, 6000, max 250000 (2000000 * 3 / 4)⟩,
       some (max 250000 (2000000 * 3 / 4))) :=
  ⟨rfl, by norm_num, by norm_num, by decide, by norm_num, by norm_num,
   c5_congestion_decrease ⟨50, 5000, 5, 250000, 5000000⟩
     ⟨some (some 100), 2, 0, 2000000⟩ 100 200 6000 rfl (by norm_num)
     (by norm_num) (by decide) (by norm_num) (by norm_num)⟩

/-! ### C9 theorems -/

/-- C9 (counterexample): `RoomManager._getNextWorker` on an empty pool
does not fail — it returns an absent worker (`undefined`) and corrupts
the round-robin index, refuting the claim that an empty pool always
fails with `NoWorkersAvailable`. -/
theorem c9_rmGetNextWorker_empty_returns_absent :
    rmGetNextWorker [] 0 = (none, none) := by decide

/-- C9 (amended): `MediasoupServer._getNextWorker` fails with
`NoWorkersAvailable` on an empty pool, and on a non-empty pool returns the
worker at the current index and advances the index modulo the pool size,
so that `n` successive calls hand out workers in round-robin order;
`RoomManager._getNextWorker` performs the same round-robin but returns an
absent worker instead of failing when the pool is empty. -/
theorem c9_getNextWorker_roundRobin (ws : List Nat) (i n : Nat)
    (h : i < ws.length) :
    (∀ j, msGetNextWorker [] j = .error .noWorkersAvailable) ∧
    msGetNextWorker ws i =
      .ok (some (ws.get ⟨i, h⟩), (i + 1) % ws.length) ∧
    msRunNextWorker ws i n =
      (List.range n).map (fun j => ws.get? ((i + j) % ws.length)) := by
  have hlen : ws.length ≠ 0 := Nat.pos_iff_ne_zero.mp (Nat.lt_of_le_of_lt
    (Nat.zero_le _) h)
  refine ⟨fun j => by simp [msGetNextWorker], ?_, ?_⟩
  · simp [msGetNextWorker, hlen, List.get?_eq_get h]
  · induction n generalizing i with
    | zero => simp [msRunNextWorker]
    | succ n ih =>
      have hstep : msGetNextWorker ws i =
          .ok (ws.get? i, (i + 1) % ws.length) := by
        simp [msGetNextWorker, hlen]
      have hmod : (i + 1) % ws.length < ws.length :=
        Nat.mod_lt _ (Nat.pos_of_ne_zero hlen)
      have hself : i % ws.length = i := Nat.mod_eq_of_lt h
      calc msRunNextWorker ws i (n + 1)
          = ws.get? i :: msRunNextWorker ws ((i + 1) % ws.length) n := by
            simp only [msRunNextWorker, hstep]
        _ = ws.get? i :: (List.range n).map
              (fun j => ws.get? (((i + 1) % ws.length + j) % ws.length)) := by
            rw [ih _ hmod]
        _ = ws.get? i :: (List.range n).map
              (fun j => ws.get? ((i + (j + 1)) % ws.length)) := by
            congr 1
            apply List.map_congr_left
            intro j _
            rw [Nat.mod_add_mod]
            have harith : i + 1 + j = i + (j + 1) := by omega
            rw [harith]
        _ = (List.range (n + 1)).map
              (fun j => ws.get? ((i + j) % ws.length)) := by
            rw [List.range_succ_eq_map, List.map_cons, List.map_map]
            congr 1
            rw [Nat.add_zero, hself]

/-- C9 (witness for the amended theorem): a two-worker pool, index 0,
three calls. -/
theorem c9_getNextWorker_roundRobin_witness :
    (0 < [10, 20].length) ∧
    ((∀ j, msGetNextWorker [] j = .error .noWorkersAvailable) ∧
    msGetNextWorker [10, 20] 0 =
      .ok (some ([10, 20].get ⟨0, by decide⟩), (0 + 1) % [10, 20].length) ∧
    msRunNextWorker [10, 20] 0 3 =
      (List.range 3).map (fun j => [10, 20].get? ((0 + j) % [10, 20].length))) :=
  ⟨by decide, c9_getNextWorker_roundRobin [10, 20] 0 3 (by decide)⟩


/-! ### C6 theorems -/

/-- C6: `startConversion` is idempotent — a second call for the same
(room, producer) pair without an intervening stop returns the very same
conversion (same identity, output directory and playlist URL), leaves the
service state unchanged, and in particular spawns no second encoder
process. -/
theorem c6_startConversion_idempotent (s : HlsState)
    (roomId producerId kind kind2 : String) :
    (startConversion (startConversion s roomId producerId kind).2
        roomId producerId kind2).1 =
      (startConversion s roomId producerId kind).1 ∧
    (startConversion (startConversion s roomId producerId kind).2
        roomId producerId kind2).2 =
      (startConversion s roomId producerId kind).2 ∧
    (startConversion (startConversion s roomId producerId kind).2
        roomId producerId kind2).2.spawned =
      (startConversion s roomId producerId kind).2.spawned := by
  cases hlook : mget s.conversions (roomId ++ "-" ++ producerId) with
  | some conversion =>
    refine ⟨?_, ?_, ?_⟩ <;> simp [startConversion, hlook]
  | none =>
    have hset : mget
        (mset s.conversions (roomId ++ "-" ++ producerId)
          ⟨roomId ++ "-" ++ producerId, roomId, producerId,
           hlsOutputPath ++ "/" ++ roomId ++ "/" ++ producerId,
           s.nextId, s.nextId + 1, s.nextId + 2,
           hlsBaseUrl ++ "/" ++ roomId ++ "/" ++ producerId ++
             "/playlist.m3u8"⟩)
        (roomId ++ "-" ++ producerId) = some
          ⟨roomId ++ "-" ++ producerId, roomId, producerId,
           hlsOutputPath ++ "/" ++ roomId ++ "/" ++ producerId,
           s.nextId, s.nextId + 1, s.nextId + 2,
           hlsBaseUrl ++ "/" ++ roomId ++ "/" ++ producerId ++
             "/playlist.m3u8"⟩ := mget_mset_self _ _ _
    refine ⟨?_, ?_, ?_⟩ <;> simp [startConversion, hlook, hset]

/-! ### C7 theorems -/

/-- C7: when the encoder exits with a non-zero (or signal) code while the
conversion is registered and the service is open, the handler schedules a
relaunch after the fixed 10-second backoff; firing that timer spawns
exactly one new encoder process and replaces only the conversion's
process handle — its identity (id, output directory, playlist URL) and
its side-channel transport and consumer are unchanged.  Once the
conversion has been removed by `stopConversion`, a firing timer does
nothing at all. -/
theorem c7_crash_restart_same_identity (s : HlsState)
    (conversionId : String) (conv : Conversion) (code : Option Int)
    (hconv : mget s.conversions conversionId = some conv)
    (hcode : code ≠ some 0)
    (hopen : s.closed = false) :
    ((conversionId, restartBackoffMs) ∈
      (onFfmpegExit s conversionId code).scheduledRestarts ∧
     restartBackoffMs = 10000) ∧
    ((fireRestart (onFfmpegExit s conversionId code)
        conversionId).spawned =
      (onFfmpegExit s conversionId code).spawned + 1 ∧
     ∃ conv', mget (fireRestart (onFfmpegExit s conversionId code)
          conversionId).conversions conversionId = some conv' ∧
       conv'.id = conv.id ∧ conv'.outputDir = conv.outputDir ∧
       conv'.hlsUrl = conv.hlsUrl ∧ conv'.transportId = conv.transportId ∧
       conv'.consumerId = conv.consumerId) ∧
    (∀ s' : HlsState, mget s'.conversions conversionId = none →
      fireRestart s' conversionId = s') := by
  have hexit : onFfmpegExit s conversionId code =
      { s with scheduledRestarts :=
          (conversionId, restartBackoffMs) :: s.scheduledRestarts } := by
    simp [onFfmpegExit, hcode, hopen]
  refine ⟨⟨?_, rfl⟩, ⟨?_, ?_⟩, ?_⟩
  · rw [hexit]; exact List.mem_cons_self _ _
  · rw [hexit]
    simp [fireRestart, hopen, hconv]
  · rw [hexit]
    refine ⟨{ conv with ffmpegProcess := s.nextId }, ?_, rfl, rfl, rfl,
      rfl, rfl⟩
    simp only [fireRestart, hopen, Bool.false_eq_true, if_false, hconv]
    exact mget_mset_self _ _ _
  · intro s' hnone
    unfold fireRestart
    rw [hnone]
    split <;> rfl

/-- C7 (witness): a registered conversion whose encoder exits with
code 1. -/
theorem c7_crash_restart_same_identity_witness :
    (mget [("r-p", Conversion.mk "r-p" "r" "p" "d" 0 1 2 "u")]
        "r-p" = some (Conversion.mk "r-p" "r" "p" "d" 0 1 2 "u")) ∧
    ((some 1 : Option Int) ≠ some 0) ∧
    ((((⟨[("r-p", ⟨"r-p", "r", "p", "d", 0, 1, 2, "u"⟩)], 5, 1, false,
        []⟩ : HlsState)).closed = false) ∧
    (((("r-p", restartBackoffMs) ∈
      (onFfmpegExit ⟨[("r-p", ⟨"r-p", "r", "p", "d", 0, 1, 2, "u"⟩)],
        5, 1, false, []⟩ "r-p" (some 1)).scheduledRestarts ∧
     restartBackoffMs = 10000) ∧
    ((fireRestart (onFfmpegExit
        ⟨[("r-p", ⟨"r-p", "r", "p", "d", 0, 1, 2, "u"⟩)], 5, 1, false, []⟩
        "r-p" (some 1)) "r-p").spawned =
      (onFfmpegExit ⟨[("r-p", ⟨"r-p", "r", "p", "d", 0, 1, 2, "u"⟩)],
        5, 1, false, []⟩ "r-p" (some 1)).spawned + 1 ∧
     ∃ conv', mget (fireRestart (onFfmpegExit
          ⟨[("r-p", ⟨"r-p", "r", "p", "d", 0, 1, 2, "u"⟩)], 5, 1, false, []⟩
          "r-p" (some 1)) "r-p").conversions "r-p" = some conv' ∧
       conv'.id = "r-p" ∧ conv'.outputDir = "d" ∧
       conv'.hlsUrl = "u" ∧ conv'.transportId = 0 ∧
       conv'.consumerId = 1) ∧
    (∀ s' : HlsState, mget s'.conversions "r-p" = none →
      fireRestart s' "r-p" = s')))) :=
  ⟨by decide, by decide, rfl,
   c7_crash_restart_same_identity
     ⟨[("r-p", ⟨"r-p", "r", "p", "d", 0, 1, 2, "u"⟩)], 5, 1, false, []⟩
     "r-p" ⟨"r-p", "r", "p", "d", 0, 1, 2, "u"⟩ (some 1)
     (by decide) (by decide) rfl⟩

/-! ### C8 theorems -/

/-- C8 (counterexample): the `HlsConverterService` S3 upload loop uploads
a segment file modified only 100 ms before the pass — well inside the
500 ms debounce window — because that loop has no modification-time
check. -/
theorem c8_service_uploader_ignores_debounce :
    (1000 - 900 < 500) ∧
    serviceUploadPass [⟨"segment_000.ts", 900⟩] =
      [⟨"segment_000.ts", 900⟩] :=
  ⟨by decide, by decide⟩

/-- C8 (amended): the debounce behaviour holds for the upload loop of
`converter.js`: a playlist/segment file modified less than 500 ms before
a pass is not uploaded in that pass, and a pass run once the file is at
least 500 ms old uploads it. -/
theorem c8_converter_debounce (now now2 : Nat) (files : List FileEntry)
    (f : FileEntry) (hmem : f ∈ files)
    (hhls : isHlsArtifact f.name = true) :
    (now - f.mtime < 500 → f ∉ converterUploadPass now files) ∧
    (500 ≤ now2 - f.mtime → f ∈ converterUploadPass now2 files) := by
  constructor
  · intro hfresh hin
    have hcond := (List.mem_filter.mp hin).2
    simp only [Bool.and_eq_true, Bool.not_eq_true', decide_eq_false_iff_not]
      at hcond
    exact hcond.2 hfresh
  · intro hstable
    refine List.mem_filter.mpr ⟨hmem, ?_⟩
    simp only [Bool.and_eq_true, Bool.not_eq_true', decide_eq_false_iff_not]
    exact ⟨hhls, Nat.not_lt.mpr hstable⟩

/-- C8 (witness for the amended theorem): a segment file of age 100 ms at
the first pass and 600 ms at the second. -/
theorem c8_converter_debounce_witness :
    ((⟨"a.ts", 0⟩ : FileEntry) ∈ [(⟨"a.ts", 0⟩ : FileEntry)]) ∧
    (isHlsArtifact "a.ts" = true) ∧
    ((100 - 0 < 500 →
        (⟨"a.ts", 0⟩ : FileEntry) ∉ converterUploadPass 100 [⟨"a.ts", 0⟩]) ∧
     (500 ≤ 600 - 0 →
        (⟨"a.ts", 0⟩ : FileEntry) ∈ converterUploadPass 600 [⟨"a.ts", 0⟩])) :=
  ⟨by decide, by decide,
   c8_converter_debounce 100 600 [⟨"a.ts", 0⟩] ⟨"a.ts", 0⟩
     (by decide) (by decide)⟩

/-! ### C10 theorems -/

theorem seqScanPort_bounded (usedPorts : List Nat) :
    ∀ k port, maxRtpPort + 2 - port ≤ k →
      port ≤ seqScanPort usedPorts port ∧
      (port % 2 = 0 → (seqScanPort usedPorts port) % 2 = 0) ∧
      (maxRtpPort < seqScanPort usedPorts port ∨
        usedPorts.contains (seqScanPort usedPorts port) = false) := by
  intro k
  induction k with
  | zero =>
    intro port hk
    have hno : ¬(port ≤ maxRtpPort ∧ usedPorts.contains port = true) := by
      intro hcon
      obtain ⟨h1, _⟩ := hcon
      omega
    unfold seqScanPort
    rw [dif_neg hno]
    exact ⟨Nat.le_refl _, fun he => he, Or.inl (by omega)⟩
  | succ k ih =>
    intro port hk
    unfold seqScanPort
    by_cases hc : port ≤ maxRtpPort ∧ usedPorts.contains port = true
    · rw [dif_pos hc]
      obtain ⟨h1, _⟩ := hc
      have hrec := ih (port + 2) (by omega)
      exact ⟨Nat.le_trans (Nat.le_add_right _ _) hrec.1,
             fun he => hrec.2.1 (by omega), hrec.2.2⟩
    · rw [dif_neg hc]
      refine ⟨Nat.le_refl _, fun he => he, ?_⟩
      by_cases hple : port ≤ maxRtpPort
      · cases hcontains : usedPorts.contains port with
        | false => exact Or.inr rfl
        | true => exact absurd ⟨hple, hcontains⟩ hc
      · exact Or.inl (by omega)

theorem seqScanPort_spec (usedPorts : List Nat) (port : Nat) :
    port ≤ seqScanPort usedPorts port ∧
    (port % 2 = 0 → (seqScanPort usedPorts port) % 2 = 0) ∧
    (maxRtpPort < seqScanPort usedPorts port ∨
      usedPorts.contains (seqScanPort usedPorts port) = false) :=
  seqScanPort_bounded usedPorts (maxRtpPort + 2 - port) port (Nat.le_refl _)

theorem allocLoop_spec (usedPorts : List Nat) (draws : List Nat) :
    minRtpPort ≤ allocLoop usedPorts draws ∧
    (allocLoop usedPorts draws) % 2 = 0 ∧
    (maxRtpPort < allocLoop usedPorts draws ∨
      usedPorts.contains (allocLoop usedPorts draws) = false) := by
  induction draws with
  | nil =>
    have h := seqScanPort_spec usedPorts minRtpPort
    exact ⟨h.1, h.2.1 (by decide), h.2.2⟩
  | cons r rs ih =>
    simp only [allocLoop]
    by_cases hc :
        usedPorts.contains (evenizePort (r % 49999 + minRtpPort)) = true
    · rw [if_pos hc]
      exact ih
    · rw [if_neg hc]
      refine ⟨?_, ?_, Or.inr (Bool.eq_false_iff.mpr hc)⟩
      · unfold evenizePort
        split <;> omega
      · have hmod : r % 49999 < 49999 := Nat.mod_lt _ (by omega)
        unfold evenizePort
        split <;> omega

/-- C10: every port returned by `allocateRtpPort` is an even number
within `[minRtpPort, maxRtpPort]`, was not in the in-use set, and is
recorded in the returned in-use set; and if every even port of the range
is already in use, the allocator throws the port-exhausted error instead
of returning a port. -/
theorem c10_allocateRtpPort_correct (usedPorts draws : List Nat) :
    (∀ p used', allocateRtpPort usedPorts draws = .ok (p, used') →
      p % 2 = 0 ∧ minRtpPort ≤ p ∧ p ≤ maxRtpPort ∧
      usedPorts.contains p = false ∧ used' = p :: usedPorts) ∧
    ((∀ q, q % 2 = 0 → minRtpPort ≤ q → q ≤ maxRtpPort →
        usedPorts.contains q = true) →
      allocateRtpPort usedPorts draws = .error .portExhausted) := by
  obtain ⟨hge, hpar, hdisj⟩ := allocLoop_spec usedPorts draws
  constructor
  · intro p used' hok
    unfold allocateRtpPort at hok
    by_cases hgt : maxRtpPort < allocLoop usedPorts draws
    · rw [if_pos hgt] at hok
      exact absurd hok (by simp)
    · rw [if_neg hgt] at hok
      obtain ⟨hp, hu⟩ := Prod.ext_iff.mp (Except.ok.inj hok)
      subst hp
      subst hu
      refine ⟨hpar, hge, Nat.not_lt.mp hgt, ?_, rfl⟩
      rcases hdisj with hgt' | hfree
      · exact absurd hgt' hgt
      · exact hfree
  · intro hall
    have hgt : maxRtpPort < allocLoop usedPorts draws := by
      rcases hdisj with hgt | hfree
      · exact hgt
      · by_cases hle : allocLoop usedPorts draws ≤ maxRtpPort
        · rw [hall _ hpar hge hle] at hfree
          exact Bool.noConfusion hfree
        · omega
    unfold allocateRtpPort
    rw [if_pos hgt]

/-- C10 (witness): a successful allocation from an empty in-use set, and
the port-exhausted error when every even port of the range is in use. -/
theorem c10_allocateRtpPort_correct_witness :
    (allocateRtpPort [] [0] = .ok (10000, [10000])) ∧
    ((10000 : Nat) % 2 = 0 ∧ minRtpPort ≤ 10000 ∧ 10000 ≤ maxRtpPort ∧
      ([] : List Nat).contains 10000 = false ∧
      [10000] = 10000 :: ([] : List Nat)) ∧
    (∀ q, q % 2 = 0 → minRtpPort ≤ q → q ≤ maxRtpPort →
      (List.range' 10000 25000 2).contains q = true) ∧
    allocateRtpPort (List.range' 10000 25000 2) [] =
      .error .portExhausted := by
  have hok : allocateRtpPort [] [0] = .ok (10000, [10000]) := rfl
  have hall : ∀ q, q % 2 = 0 → minRtpPort ≤ q → q ≤ maxRtpPort →
      (List.range' 10000 25000 2).contains q = true := by
    intro q h1 h2 h3
    have h2' : 10000 ≤ q := h2
    have h3' : q ≤ 59999 := h3
    have hmem : q ∈ List.range' 10000 25000 2 := by
      rw [List.mem_range']
      exact ⟨(q - 10000) / 2, by omega, by omega⟩
    simpa using hmem
  exact ⟨hok, (c10_allocateRtpPort_correct [] [0]).1 10000 [10000] hok,
    hall, (c10_allocateRtpPort_correct _ []).2 hall⟩
